import Mathlib

/-
  Verification of the pdm crate (second-order pulse-density modulator).

  The development shallowly embeds src/lib.rs:
  - `Pdm` mirrors `struct Pdm<T> { value: T, sigma: [T::SigmaType; 2] }`
    (the two-element array is split into the fields `sigma0`, `sigma1`);
  - `Pdm.updateU`, `Pdm.updateS`, `Pdm.updateF` mirror the `update` bodies
    generated by `gen_unsigned_impl!`, `gen_signed_impl!` and `gen_float_impl!`,
    with the per-type constant `<$T>::MAX` abstracted as the parameter `max`
    and the machine integers read as exact integers (ℤ); floats are read as
    exact rationals (ℚ);
  - `Pdm.updateUW` is the same unsigned body under two's-complement wrapping
    arithmetic (`wrap w`), the release-mode Rust semantics of the `$S`-typed
    additions; successive wrapped operations are collapsed into one `wrap`
    per assignment, which is sound because `wrap` respects congruence
    modulo 2 ^ w (lemma `wrap_add_left` below);
  - `specStep` is written from the spec's §4.2 step algorithm (delta selection
    by the sign of the previous second stage, then the two stage updates,
    then the output bit), for comparison against the embedded code.
-/

/-- State of one modulator instance: the stored setpoint and the two
accumulator registers (`sigma: [T::SigmaType; 2]` in the source). -/
structure Pdm (α : Type) where
  value : α
  sigma0 : α
  sigma1 : α
deriving DecidableEq

/-- Embeds `Pdm::set_value`: overwrite the stored setpoint, touch nothing
else; the source performs no validation and has no error path. -/
def Pdm.set_value {α : Type} (s : Pdm α) (value : α) : Pdm α :=
  { s with value := value }

/-- Embeds `Pdm::<integer>::new()` (and the signed `Default`): zero setpoint,
zero accumulators. -/
def Pdm.new : Pdm ℤ :=
  ⟨0, 0, 0⟩

/-- Embeds the float `Pdm::new()` / `Default`: all fields `0.0`. -/
def Pdm.newQ : Pdm ℚ :=
  ⟨0, 0, 0⟩

/-- Embeds the `update` body generated by `gen_unsigned_impl!($T, $S)`,
with `max = <$T>::MAX` and the `$S` arithmetic read exactly (in ℤ). -/
def Pdm.updateU (max : ℤ) (s : Pdm ℤ) : Pdm ℤ × Bool :=
  if s.sigma1 ≥ 0 then
    let n0 := s.sigma0 + s.value - max
    let n1 := s.sigma1 + n0 - max
    (⟨s.value, n0, n1⟩, decide (n1 ≥ 0))
  else
    let n0 := s.sigma0 + s.value
    let n1 := s.sigma1 + n0
    (⟨s.value, n0, n1⟩, decide (n1 ≥ 0))

/-- Embeds the `update` body generated by `gen_signed_impl!($T, $S)`,
with `max = <$T>::MAX` and the `$S` arithmetic read exactly (in ℤ). -/
def Pdm.updateS (max : ℤ) (s : Pdm ℤ) : Pdm ℤ × Bool :=
  if s.sigma1 ≥ 0 then
    let n0 := s.sigma0 + s.value - max
    let n1 := s.sigma1 + n0 - max
    (⟨s.value, n0, n1⟩, decide (n1 ≥ 0))
  else
    let n0 := s.sigma0 + s.value + max
    let n1 := s.sigma1 + n0 + max
    (⟨s.value, n0, n1⟩, decide (n1 ≥ 0))

/-- Embeds the `update` body generated by `gen_float_impl!($T)` (correction
constant `1.0`), with the float arithmetic read exactly (in ℚ). -/
def Pdm.updateF (s : Pdm ℚ) : Pdm ℚ × Bool :=
  if s.sigma1 ≥ 0 then
    let n0 := s.sigma0 + s.value - 1
    let n1 := s.sigma1 + n0 - 1
    (⟨s.value, n0, n1⟩, decide (n1 ≥ 0))
  else
    let n0 := s.sigma0 + s.value + 1
    let n1 := s.sigma1 + n0 + 1
    (⟨s.value, n0, n1⟩, decide (n1 ≥ 0))

/-- Two's-complement wrapping of an integer into the `w`-bit signed range,
the release-mode Rust semantics of `$S` addition and subtraction. -/
def wrap (w : ℕ) (x : ℤ) : ℤ :=
  (x + 2 ^ (w - 1)) % 2 ^ w - 2 ^ (w - 1)

/-- The unsigned `update` body under `w`-bit two's-complement wrapping
arithmetic on the sigma registers (release-mode Rust semantics). -/
def Pdm.updateUW (w : ℕ) (max : ℤ) (s : Pdm ℤ) : Pdm ℤ × Bool :=
  if s.sigma1 ≥ 0 then
    let n0 := wrap w (s.sigma0 + s.value - max)
    let n1 := wrap w (s.sigma1 + n0 - max)
    (⟨s.value, n0, n1⟩, decide (n1 ≥ 0))
  else
    let n0 := wrap w (s.sigma0 + s.value)
    let n1 := wrap w (s.sigma1 + n0)
    (⟨s.value, n0, n1⟩, decide (n1 ≥ 0))

/-- Modelled from the spec (§4.2 step algorithm): select
`delta = delta_neg if stage[1] >= zero else delta_pos`, then
`stage[0] += widen(setpoint) + delta`, `stage[1] += stage[0] + delta`,
and emit `stage[1] >= zero`. Used to compare the spec's algorithm with the
code-embedded update functions. -/
def specStep {α : Type} [LinearOrderedRing α] (zero dpos dneg : α) (s : Pdm α) :
    Pdm α × Bool :=
  let delta := if s.sigma1 ≥ zero then dneg else dpos
  let n0 := s.sigma0 + s.value + delta
  let n1 := s.sigma1 + n0 + delta
  (⟨s.value, n0, n1⟩, decide (n1 ≥ zero))

/-- Iterate an update function `n` times (the caller's step loop). -/
def Pdm.run {α : Type} (f : Pdm α → Pdm α × Bool) : ℕ → Pdm α → Pdm α
  | 0, s => s
  | n + 1, s => Pdm.run f n (f s).1

/-- Number of `true` output bits among the first `n` update calls. -/
def Pdm.countTrue {α : Type} (f : Pdm α → Pdm α × Bool) : ℕ → Pdm α → ℕ
  | 0, _ => 0
  | n + 1, s => (if (f s).2 then 1 else 0) + Pdm.countTrue f n (f s).1

/-- Number of indices `i < n` at which the pre-update second stage is
non-negative (the branch condition of the source's `update`). -/
def Pdm.bcount (f : Pdm ℤ → Pdm ℤ × Bool) : ℕ → Pdm ℤ → ℕ
  | 0, _ => 0
  | n + 1, s => (if s.sigma1 ≥ 0 then 1 else 0) + Pdm.bcount f n (f s).1

/-- Iterated unsigned update (exact arithmetic). -/
def Pdm.runU (max : ℤ) : ℕ → Pdm ℤ → Pdm ℤ :=
  Pdm.run (Pdm.updateU max)

/-- True-bit count of the unsigned update (exact arithmetic). -/
def Pdm.countU (max : ℤ) : ℕ → Pdm ℤ → ℕ :=
  Pdm.countTrue (Pdm.updateU max)

/-- Iterated signed update (exact arithmetic). -/
def Pdm.runS (max : ℤ) : ℕ → Pdm ℤ → Pdm ℤ :=
  Pdm.run (Pdm.updateS max)

/-- True-bit count of the signed update (exact arithmetic). -/
def Pdm.countS (max : ℤ) : ℕ → Pdm ℤ → ℕ :=
  Pdm.countTrue (Pdm.updateS max)

/-- Iterated unsigned update under `w`-bit wrapping arithmetic. -/
def Pdm.runUW (w : ℕ) (max : ℤ) : ℕ → Pdm ℤ → Pdm ℤ :=
  Pdm.run (Pdm.updateUW w max)

/-- True-bit count of the unsigned update under `w`-bit wrapping. -/
def Pdm.countUW (w : ℕ) (max : ℤ) : ℕ → Pdm ℤ → ℕ :=
  Pdm.countTrue (Pdm.updateUW w max)

/-- Output bit of update call number `n + 1` (exact unsigned arithmetic). -/
def Pdm.outAtU (max : ℤ) (n : ℕ) (s : Pdm ℤ) : Bool :=
  (Pdm.updateU max (Pdm.runU max n s)).2

/-- Output bit of update call number `n + 1` (wrapped unsigned arithmetic). -/
def Pdm.outAtUW (w : ℕ) (max : ℤ) (n : ℕ) (s : Pdm ℤ) : Bool :=
  (Pdm.updateUW w max (Pdm.runUW w max n s)).2

/-- One interaction of the caller with a modulator: either `set_value v`
or one `update` call. -/
inductive PdmOp (α : Type) where
  | setValue (v : α)
  | update

/-- Run a sequence of caller interactions against an engine, collecting the
booleans returned by the `update` calls. -/
def runOps {α : Type} (upd : Pdm α → Pdm α × Bool) :
    List (PdmOp α) → Pdm α → Pdm α × List Bool
  | [], s => (s, [])
  | PdmOp.setValue v :: rest, s => runOps upd rest (s.set_value v)
  | PdmOp.update :: rest, s =>
      let r := upd s
      let t := runOps upd rest r.1
      (t.1, r.2 :: t.2)

/-- Embeds `u8::MAX` (from `gen_unsigned_impl!(u8, i16)`). -/
def u8Max : ℤ := 2 ^ 8 - 1

/-- Embeds `u16::MAX` (from `gen_unsigned_impl!(u16, i32)`). -/
def u16Max : ℤ := 2 ^ 16 - 1

/-- Embeds `u32::MAX` (from `gen_unsigned_impl!(u32, i64)`). -/
def u32Max : ℤ := 2 ^ 32 - 1

/-- Embeds `u64::MAX` (from `gen_unsigned_impl!(u64, i128)`). -/
def u64Max : ℤ := 2 ^ 64 - 1

/-- Embeds `i8::MAX` (from `gen_signed_impl!(i8, i16)`). -/
def i8Max : ℤ := 2 ^ 7 - 1

/-- Embeds `i16::MAX` (from `gen_signed_impl!(i16, i32)`). -/
def i16Max : ℤ := 2 ^ 15 - 1

/-- Embeds `i32::MAX` (from `gen_signed_impl!(i32, i64)`). -/
def i32Max : ℤ := 2 ^ 31 - 1

/-- Embeds `i64::MAX` (from `gen_signed_impl!(i64, i128)`). -/
def i64Max : ℤ := 2 ^ 63 - 1

/-- Value width of `u8`. -/
def u8Bits : ℕ := 8

/-- Value width of `u16`. -/
def u16Bits : ℕ := 16

/-- Value width of `u32`. -/
def u32Bits : ℕ := 32

/-- Value width of `u64`. -/
def u64Bits : ℕ := 64

/-- Value width of `i8`. -/
def i8Bits : ℕ := 8

/-- Value width of `i16`. -/
def i16Bits : ℕ := 16

/-- Value width of `i32`. -/
def i32Bits : ℕ := 32

/-- Value width of `i64`. -/
def i64Bits : ℕ := 64

/-- Value width of `f32`. -/
def f32Bits : ℕ := 32

/-- Value width of `f64`. -/
def f64Bits : ℕ := 64

/-- Accumulator width bound to `u8`: `SigmaType = i16` in
`gen_unsigned_impl!(u8, i16)`. -/
def u8SigmaBits : ℕ := 16

/-- Accumulator width bound to `u16`: `SigmaType = i32`. -/
def u16SigmaBits : ℕ := 32

/-- Accumulator width bound to `u32`: `SigmaType = i64`. -/
def u32SigmaBits : ℕ := 64

/-- Accumulator width bound to `u64`: `SigmaType = i128`. -/
def u64SigmaBits : ℕ := 128

/-- Accumulator width bound to `i8`: `SigmaType = i16`. -/
def i8SigmaBits : ℕ := 16

/-- Accumulator width bound to `i16`: `SigmaType = i32`. -/
def i16SigmaBits : ℕ := 32

/-- Accumulator width bound to `i32`: `SigmaType = i64`. -/
def i32SigmaBits : ℕ := 64

/-- Accumulator width bound to `i64`: `SigmaType = i128`. -/
def i64SigmaBits : ℕ := 128

/-- Accumulator width bound to `f32`: `SigmaType = f32` (same width). -/
def f32SigmaBits : ℕ := 32

/-- Accumulator width bound to `f64`: `SigmaType = f64` (same width). -/
def f64SigmaBits : ℕ := 64

/-- The `u8` instantiation of `update` (from `gen_unsigned_impl!(u8, i16)`). -/
def updateU8 : Pdm ℤ → Pdm ℤ × Bool := Pdm.updateU u8Max

/-- The `u16` instantiation of `update`. -/
def updateU16 : Pdm ℤ → Pdm ℤ × Bool := Pdm.updateU u16Max

/-- The `u32` instantiation of `update`. -/
def updateU32 : Pdm ℤ → Pdm ℤ × Bool := Pdm.updateU u32Max

/-- The `u64` instantiation of `update`. -/
def updateU64 : Pdm ℤ → Pdm ℤ × Bool := Pdm.updateU u64Max

/-- The `i8` instantiation of `update` (from `gen_signed_impl!(i8, i16)`). -/
def updateI8 : Pdm ℤ → Pdm ℤ × Bool := Pdm.updateS i8Max

/-- The `i16` instantiation of `update`. -/
def updateI16 : Pdm ℤ → Pdm ℤ × Bool := Pdm.updateS i16Max

/-- The `i32` instantiation of `update`. -/
def updateI32 : Pdm ℤ → Pdm ℤ × Bool := Pdm.updateS i32Max

/-- The `i64` instantiation of `update`. -/
def updateI64 : Pdm ℤ → Pdm ℤ × Bool := Pdm.updateS i64Max

/-- The representable minimum of the `i16` accumulator type. -/
def i16SigmaMin : ℤ := -(2 ^ 15)

/-- The representable maximum of the `i16` accumulator type. -/
def i16SigmaMax : ℤ := 2 ^ 15 - 1

/- ------------------------------------------------------------------ -/
/- Helper lemmas shared by the claim theorems.                         -/
/- ------------------------------------------------------------------ -/

/-- The unsigned update is the spec's step algorithm at the unsigned
constants `zero = 0`, `delta_pos = 0`, `delta_neg = -max`. -/
theorem updateU_spec (max : ℤ) (s : Pdm ℤ) :
    Pdm.updateU max s = specStep 0 0 (-max) s := by
  by_cases h : s.sigma1 ≥ (0 : ℤ) <;>
    simp only [Pdm.updateU, specStep, h, if_true, if_false, ite_true, ite_false,
      Prod.mk.injEq, Pdm.mk.injEq, true_and] <;>
    refine ⟨⟨by ring, by ring⟩, ?_⟩ <;>
    · rw [decide_eq_decide]
      constructor <;> intro hx <;> omega

/-- The signed update is the spec's step algorithm at the signed constants
`zero = 0`, `delta_pos = max`, `delta_neg = -max`. -/
theorem updateS_spec (max : ℤ) (s : Pdm ℤ) :
    Pdm.updateS max s = specStep 0 max (-max) s := by
  by_cases h : s.sigma1 ≥ (0 : ℤ) <;>
    simp only [Pdm.updateS, specStep, h, if_true, if_false, ite_true, ite_false,
      Prod.mk.injEq, Pdm.mk.injEq, true_and] <;>
    refine ⟨⟨by ring, by ring⟩, ?_⟩ <;>
    · rw [decide_eq_decide]
      constructor <;> intro hx <;> omega

/-- The float update is the spec's step algorithm at the float constants
`zero = 0`, `delta_pos = 1`, `delta_neg = -1`. -/
theorem updateF_spec (s : Pdm ℚ) :
    Pdm.updateF s = specStep 0 1 (-1) s := by
  by_cases h : s.sigma1 ≥ (0 : ℚ) <;>
    simp only [Pdm.updateF, specStep, h, if_true, if_false, ite_true, ite_false,
      Prod.mk.injEq, Pdm.mk.injEq, true_and] <;>
    refine ⟨⟨by ring, by ring⟩, ?_⟩ <;>
    · rw [decide_eq_decide]
      constructor <;> intro hx <;> linarith

/-- Every update variant leaves the stored setpoint unchanged (unsigned). -/
theorem updateU_value (max : ℤ) (s : Pdm ℤ) :
    (Pdm.updateU max s).1.value = s.value := by
  unfold Pdm.updateU
  split <;> rfl

/-- Every update variant leaves the stored setpoint unchanged (signed). -/
theorem updateS_value (max : ℤ) (s : Pdm ℤ) :
    (Pdm.updateS max s).1.value = s.value := by
  unfold Pdm.updateS
  split <;> rfl

/-- Every update variant leaves the stored setpoint unchanged (float). -/
theorem updateF_value (s : Pdm ℚ) :
    (Pdm.updateF s).1.value = s.value := by
  unfold Pdm.updateF
  split <;> rfl

/-- The returned boolean is exactly the sign test of the updated second
stage (unsigned). -/
theorem updateU_bit (max : ℤ) (s : Pdm ℤ) :
    (Pdm.updateU max s).2 = decide ((Pdm.updateU max s).1.sigma1 ≥ 0) := by
  unfold Pdm.updateU
  split <;> rfl

/-- The returned boolean is exactly the sign test of the updated second
stage (signed). -/
theorem updateS_bit (max : ℤ) (s : Pdm ℤ) :
    (Pdm.updateS max s).2 = decide ((Pdm.updateS max s).1.sigma1 ≥ 0) := by
  unfold Pdm.updateS
  split <;> rfl

/-- First stage of the unsigned update: the setpoint plus `-max` when the
previous second stage was non-negative, plus nothing otherwise. -/
theorem updateU_sigma0 (max : ℤ) (s : Pdm ℤ) :
    (Pdm.updateU max s).1.sigma0 =
      s.sigma0 + s.value + (if s.sigma1 ≥ 0 then -max else 0) := by
  unfold Pdm.updateU
  by_cases h : s.sigma1 ≥ (0 : ℤ) <;> simp [h] <;> ring

/-- First stage of the signed update: the setpoint plus `-max` when the
previous second stage was non-negative, plus `max` otherwise. -/
theorem updateS_sigma0 (max : ℤ) (s : Pdm ℤ) :
    (Pdm.updateS max s).1.sigma0 =
      s.sigma0 + s.value + (if s.sigma1 ≥ 0 then -max else max) := by
  unfold Pdm.updateS
  by_cases h : s.sigma1 ≥ (0 : ℤ) <;> simp [h] <;> ring

/-- Running `a + b` steps is running `a` steps and then `b` steps. -/
theorem run_add {α : Type} (f : Pdm α → Pdm α × Bool) (a b : ℕ) (s : Pdm α) :
    Pdm.run f (a + b) s = Pdm.run f b (Pdm.run f a s) := by
  induction a generalizing s with
  | zero => simp [Pdm.run]
  | succ n ih =>
      rw [Nat.succ_add]
      simp only [Pdm.run]
      exact ih _

/-- True-bit counts over `a + b` steps split at step `a`. -/
theorem countTrue_add {α : Type} (f : Pdm α → Pdm α × Bool) (a b : ℕ) (s : Pdm α) :
    Pdm.countTrue f (a + b) s =
      Pdm.countTrue f a s + Pdm.countTrue f b (Pdm.run f a s) := by
  induction a generalizing s with
  | zero => simp [Pdm.countTrue, Pdm.run]
  | succ n ih =>
      rw [Nat.succ_add]
      simp only [Pdm.countTrue, Pdm.run]
      rw [ih]
      omega

/-- A state that recurs after `p` steps recurs after any multiple of `p`. -/
theorem run_cycle {α : Type} (f : Pdm α → Pdm α × Bool) (p : ℕ) (s : Pdm α)
    (h : Pdm.run f p s = s) (k : ℕ) : Pdm.run f (k * p) s = s := by
  induction k with
  | zero => simp [Pdm.run]
  | succ n ih =>
      rw [Nat.succ_mul, run_add, ih, h]

/-- Over `k` repetitions of a recurring window of `p` steps the true-bit
count is `k` times the count over one window. -/
theorem countTrue_cycle {α : Type} (f : Pdm α → Pdm α × Bool) (p : ℕ) (s : Pdm α)
    (h : Pdm.run f p s = s) (k : ℕ) :
    Pdm.countTrue f (k * p) s = k * Pdm.countTrue f p s := by
  induction k with
  | zero => simp [Pdm.countTrue]
  | succ n ih =>
      rw [Nat.succ_mul, countTrue_add, ih, run_cycle f p s h n, Nat.succ_mul]

/-- Closed form for the first stage after `n` steps, for any update function
whose one-step effect on `sigma0` adds the setpoint plus a branch-selected
correction, and which preserves the setpoint. -/
theorem sigma0_run (f : Pdm ℤ → Pdm ℤ × Bool) (dpos dneg : ℤ)
    (hv : ∀ s, (f s).1.value = s.value)
    (h0 : ∀ s, (f s).1.sigma0 =
      s.sigma0 + s.value + (if s.sigma1 ≥ 0 then dneg else dpos))
    (n : ℕ) (s : Pdm ℤ) :
    (Pdm.run f n s).sigma0 =
      s.sigma0 + n * s.value + dneg * Pdm.bcount f n s +
        dpos * ((n : ℤ) - Pdm.bcount f n s) := by
  induction n generalizing s with
  | zero => simp [Pdm.run, Pdm.bcount]
  | succ n ih =>
      simp only [Pdm.run, Pdm.bcount]
      rw [ih, h0, hv]
      by_cases h : s.sigma1 ≥ (0 : ℤ) <;> simp [h] <;> push_cast <;> ring

/-- The output-bit count and the branch-indicator count differ only by the
sign indicators of the first and last states. -/
theorem countTrue_bcount (f : Pdm ℤ → Pdm ℤ × Bool)
    (hb : ∀ s, (f s).2 = decide ((f s).1.sigma1 ≥ 0))
    (n : ℕ) (s : Pdm ℤ) :
    Pdm.countTrue f n s + (if s.sigma1 ≥ 0 then 1 else 0) =
      Pdm.bcount f n s + (if (Pdm.run f n s).sigma1 ≥ 0 then 1 else 0) := by
  induction n generalizing s with
  | zero => simp [Pdm.countTrue, Pdm.bcount, Pdm.run]
  | succ n ih =>
      simp only [Pdm.countTrue, Pdm.bcount, Pdm.run]
      rw [hb]
      have := ih (f s).1
      by_cases h : (f s).1.sigma1 ≥ (0 : ℤ) <;> simp [h] at this ⊢ <;> omega

/-- Exact bit density over any recurring window of the unsigned engine:
`p` steps starting and ending at the same state emit exactly
`p * value / max` true bits, i.e. `p * value = max * count`. -/
theorem cycle_density_U (max : ℤ) (s : Pdm ℤ) (p : ℕ)
    (h : Pdm.runU max p s = s) :
    (p : ℤ) * s.value = max * (Pdm.countU max p s : ℤ) := by
  have hs0 := sigma0_run (Pdm.updateU max) 0 (-max) (updateU_value max)
    (updateU_sigma0 max) p s
  have hcb := countTrue_bcount (Pdm.updateU max) (updateU_bit max) p s
  unfold Pdm.runU at h
  rw [h] at hs0 hcb
  have hnb : Pdm.countTrue (Pdm.updateU max) p s =
      Pdm.bcount (Pdm.updateU max) p s := by omega
  unfold Pdm.countU
  rw [hnb]
  linarith [hs0]

/-- Exact bit density over any recurring window of the signed engine:
`p` steps starting and ending at the same state satisfy
`p * (value + max) = 2 * max * count`. -/
theorem cycle_density_S (max : ℤ) (s : Pdm ℤ) (p : ℕ)
    (h : Pdm.runS max p s = s) :
    (p : ℤ) * (s.value + max) = 2 * max * (Pdm.countS max p s : ℤ) := by
  have hs0 := sigma0_run (Pdm.updateS max) max (-max) (updateS_value max)
    (updateS_sigma0 max) p s
  have hcb := countTrue_bcount (Pdm.updateS max) (updateS_bit max) p s
  unfold Pdm.runS at h
  rw [h] at hs0 hcb
  have hnb : Pdm.countTrue (Pdm.updateS max) p s =
      Pdm.bcount (Pdm.updateS max) p s := by omega
  unfold Pdm.countS
  rw [hnb]
  linarith [hs0]

/-- Wrapping is determined by the congruence class modulo `2 ^ w`. -/
theorem wrap_congr (w : ℕ) (a b : ℤ) (h : a % 2 ^ w = b % 2 ^ w) :
    wrap w a = wrap w b := by
  unfold wrap
  congr 1
  rw [Int.add_emod, h, ← Int.add_emod]

/-- A wrapped value is congruent to the original modulo `2 ^ w`. -/
theorem wrap_emod (w : ℕ) (x : ℤ) : wrap w x % 2 ^ w = x % 2 ^ w := by
  unfold wrap
  conv_lhs => rw [Int.sub_emod, Int.emod_emod_of_dvd _ dvd_rfl, ← Int.sub_emod]
  congr 1
  ring

/-- Collapsing successive wrapped operations into one `wrap` per assignment
is sound: wrapping the left summand first does not change the wrapped sum. -/
theorem wrap_add_left (w : ℕ) (x y : ℤ) :
    wrap w (wrap w x + y) = wrap w (x + y) :=
  wrap_congr w _ _ (by rw [Int.add_emod, wrap_emod, ← Int.add_emod])

set_option maxRecDepth 1000000

/-- After the 35-step transient, the u8 engine with setpoint 42 is in state
`(sigma0, sigma1) = (-60, -315)`. -/
theorem u8_42_transient :
    Pdm.runU 255 35 (Pdm.new.set_value 42) = Pdm.mk 42 (-60) (-315) := by
  decide

/-- The u8 engine with setpoint 42 revisits the state `(-60, -315)` after 85
further steps: its steady orbit has period 85. -/
theorem u8_42_cycle :
    Pdm.runU 255 85 (Pdm.mk 42 (-60) (-315)) = Pdm.mk 42 (-60) (-315) := by
  decide

/-- True-bit count of the literal test scenario (u8, setpoint 42, 500000
steps), computed as transient + 5881 full periods + 80 remaining steps. -/
theorem countU_500000 :
    Pdm.countU 255 500000 (Pdm.new.set_value 42) = 82352 := by
  have e : (500000 : ℕ) = 35 + (5881 * 85 + 80) := by norm_num
  rw [e]
  unfold Pdm.countU
  rw [countTrue_add, countTrue_add]
  have h35 : Pdm.run (Pdm.updateU 255) 35 (Pdm.new.set_value 42) =
      Pdm.mk 42 (-60) (-315) := u8_42_transient
  rw [h35]
  have hcy : Pdm.run (Pdm.updateU 255) 85 (Pdm.mk 42 (-60) (-315)) =
      Pdm.mk 42 (-60) (-315) := u8_42_cycle
  rw [run_cycle _ 85 _ hcy 5881]
  rw [countTrue_cycle _ 85 _ hcy 5881]
  have h1 : Pdm.countTrue (Pdm.updateU 255) 35 (Pdm.new.set_value 42) = 5 := by
    decide
  have h2 : Pdm.countTrue (Pdm.updateU 255) 85 (Pdm.mk 42 (-60) (-315)) = 14 := by
    decide
  have h3 : Pdm.countTrue (Pdm.updateU 255) 80 (Pdm.mk 42 (-60) (-315)) = 13 := by
    decide
  rw [h1, h2, h3]

/- ------------------------------------------------------------------ -/
/- Claim theorems.                                                     -/
/- ------------------------------------------------------------------ -/

/-- C1: the claim states that for every documented-range setpoint the
accumulator registers never leave the representable range of the declared
accumulator type and no addition in `update` overflows, over unbounded step
counts. This is false on the code: for the u8 engine with setpoint 0 (the
documented range is `[0, 255]`), the exact value of `sigma[1]` after 128
updates is `-32895`, strictly below `i16::MIN = -32768`, so the addition
`self.sigma[1] + sigma_new[0]` in the 128th update overflows its `i16`
accumulator; under release-mode wrapping the register instead holds `32641`.
The theorem evaluates the embedded code at this failing input. -/
theorem C1_overflow_at_zero_setpoint :
    (Pdm.runU 255 128 (Pdm.new.set_value 0)).sigma1 = -32895 ∧
    (Pdm.runU 255 128 (Pdm.new.set_value 0)).sigma1 < i16SigmaMin ∧
    (Pdm.runUW 16 255 128 (Pdm.new.set_value 0)).sigma1 = 32641 := by
  refine ⟨by decide, by decide, by decide⟩

/-- C2: one call to `update` performs exactly the spec's §4.2 step algorithm
with the §4.1 constants of its type: `delta = delta_neg` when the previous
`sigma[1]` is non-negative and `delta_pos` otherwise, then
`sigma[0] += setpoint + delta`, `sigma[1] += sigma[0] + delta`, returning
`sigma[1] >= 0` after the update. Unsigned uses `(dpos, dneg) = (0, -max)`,
signed `(max, -max)`, float `(1, -1)`. -/
theorem C2_update_is_spec_step :
    (∀ (max : ℤ) (s : Pdm ℤ), Pdm.updateU max s = specStep 0 0 (-max) s) ∧
    (∀ (max : ℤ) (s : Pdm ℤ), Pdm.updateS max s = specStep 0 max (-max) s) ∧
    (∀ s : Pdm ℚ, Pdm.updateF s = specStep 0 1 (-1) s) :=
  ⟨updateU_spec, updateS_spec, updateF_spec⟩

/-- C3 counterexample: the claim says that in the non-negative branch an
unsigned engine applies no correction, i.e. the new `sigma[0]` would be the
old `sigma[0]` plus the setpoint. At the concrete input: fresh u8 engine
(so `sigma[1] = 0`, the non-negative branch) with setpoint 0, the claim
predicts `sigma[0] = 0`, but the code yields `-255`: the `-max` correction
is applied in the non-negative branch, not the negative one. -/
theorem C3_counterexample :
    ¬ ((Pdm.updateU u8Max (Pdm.new.set_value 0)).1.sigma0 =
        (Pdm.new.set_value 0).sigma0 + (Pdm.new.set_value 0).value) := by
  decide

/-- C3 amended: the correction roles are the reverse of the claim:
`delta_neg` is added to a stage computed in the branch where the previous
`sigma[1]` is non-negative, and `delta_pos` in the branch where it is
negative. In particular the unsigned engine adds `-max` in the non-negative
branch and applies no correction in the negative branch; the signed engine
adds `-max` in the non-negative branch and `+max` in the negative branch. -/
theorem C3_delta_roles_swapped :
    ∀ (max : ℤ) (s : Pdm ℤ),
      ((Pdm.updateU max s).1.sigma0 =
          s.sigma0 + s.value + (if s.sigma1 ≥ 0 then -max else 0) ∧
        (Pdm.updateU max s).1.sigma1 =
          s.sigma1 + (Pdm.updateU max s).1.sigma0 +
            (if s.sigma1 ≥ 0 then -max else 0)) ∧
      ((Pdm.updateS max s).1.sigma0 =
          s.sigma0 + s.value + (if s.sigma1 ≥ 0 then -max else max) ∧
        (Pdm.updateS max s).1.sigma1 =
          s.sigma1 + (Pdm.updateS max s).1.sigma0 +
            (if s.sigma1 ≥ 0 then -max else max)) := by
  intro max s
  refine ⟨⟨?_, ?_⟩, ?_, ?_⟩ <;>
    by_cases h : s.sigma1 ≥ (0 : ℤ) <;>
    simp [Pdm.updateU, Pdm.updateS, h] <;> ring

/-- C4: every supported value type is bound to the canonical table: each
unsigned type's `update` is the spec step at `(dpos, dneg) = (0, -max)` with
a double-width accumulator, each signed type's at `(+max, -max)` with a
double-width accumulator, and the float `update` is the spec step at
`(+1, -1)` with a same-width accumulator. The `Max` constants are the value
types' maxima and the width constants record the macro invocations
`gen_unsigned_impl!/gen_signed_impl!/gen_float_impl!`. -/
theorem C4_domain_table :
    ((∀ s, updateU8 s = specStep 0 0 (-u8Max) s) ∧
      u8Max = 2 ^ u8Bits - 1 ∧ u8SigmaBits = 2 * u8Bits) ∧
    ((∀ s, updateU16 s = specStep 0 0 (-u16Max) s) ∧
      u16Max = 2 ^ u16Bits - 1 ∧ u16SigmaBits = 2 * u16Bits) ∧
    ((∀ s, updateU32 s = specStep 0 0 (-u32Max) s) ∧
      u32Max = 2 ^ u32Bits - 1 ∧ u32SigmaBits = 2 * u32Bits) ∧
    ((∀ s, updateU64 s = specStep 0 0 (-u64Max) s) ∧
      u64Max = 2 ^ u64Bits - 1 ∧ u64SigmaBits = 2 * u64Bits) ∧
    ((∀ s, updateI8 s = specStep 0 i8Max (-i8Max) s) ∧
      i8Max = 2 ^ (i8Bits - 1) - 1 ∧ i8SigmaBits = 2 * i8Bits) ∧
    ((∀ s, updateI16 s = specStep 0 i16Max (-i16Max) s) ∧
      i16Max = 2 ^ (i16Bits - 1) - 1 ∧ i16SigmaBits = 2 * i16Bits) ∧
    ((∀ s, updateI32 s = specStep 0 i32Max (-i32Max) s) ∧
      i32Max = 2 ^ (i32Bits - 1) - 1 ∧ i32SigmaBits = 2 * i32Bits) ∧
    ((∀ s, updateI64 s = specStep 0 i64Max (-i64Max) s) ∧
      i64Max = 2 ^ (i64Bits - 1) - 1 ∧ i64SigmaBits = 2 * i64Bits) ∧
    ((∀ s : Pdm ℚ, Pdm.updateF s = specStep 0 1 (-1) s) ∧
      f32SigmaBits = f32Bits ∧ f64SigmaBits = f64Bits) :=
  ⟨⟨fun s => updateU_spec u8Max s, by decide, by decide⟩,
    ⟨fun s => updateU_spec u16Max s, by decide, by decide⟩,
    ⟨fun s => updateU_spec u32Max s, by decide, by decide⟩,
    ⟨fun s => updateU_spec u64Max s, by decide, by decide⟩,
    ⟨fun s => updateS_spec i8Max s, by decide, by decide⟩,
    ⟨fun s => updateS_spec i16Max s, by decide, by decide⟩,
    ⟨fun s => updateS_spec i32Max s, by decide, by decide⟩,
    ⟨fun s => updateS_spec i64Max s, by decide, by decide⟩,
    ⟨fun s => updateF_spec s, by decide, by decide⟩⟩

/-- C5 counterexample: the claim quantifies over every setpoint in the
documented range, hence also over the unsigned setpoint 0. Rendered without
division, the claimed 1%-band condition `0.99 <= (count * max / N) / v <= 1.01`
at `v = 0` reads `99 * (N * 0) <= 100 * (count * 255)` and
`100 * (count * 255) <= 101 * (N * 0)`. Under the code's release-mode
wrapping semantics the u8 engine with setpoint 0 emits a `true` bit at update
128 (accumulator wrap), so the count is at least 1 from then on and no
threshold `N0` makes the band hold for all larger `N`: the claim is false at
this concrete input. -/
theorem C5_counterexample :
    ¬ ∃ N0 : ℕ, ∀ N : ℕ, N0 ≤ N →
        (99 * ((N : ℤ) * 0) ≤
            100 * ((Pdm.countUW 16 255 N (Pdm.new.set_value 0) : ℤ) * 255) ∧
          100 * ((Pdm.countUW 16 255 N (Pdm.new.set_value 0) : ℤ) * 255) ≤
            101 * ((N : ℤ) * 0)) := by
  rintro ⟨N0, h⟩
  have h128 : Pdm.countUW 16 255 128 (Pdm.new.set_value 0) = 1 := by decide
  have hadd : Pdm.countUW 16 255 (128 + N0) (Pdm.new.set_value 0) =
      Pdm.countUW 16 255 128 (Pdm.new.set_value 0) +
        Pdm.countUW 16 255 N0 (Pdm.runUW 16 255 128 (Pdm.new.set_value 0)) := by
    unfold Pdm.countUW Pdm.runUW
    exact countTrue_add _ 128 N0 _
  have hge : 1 ≤ Pdm.countUW 16 255 (128 + N0) (Pdm.new.set_value 0) := by omega
  have h2 := (h (128 + N0) (by omega)).2
  have hz : (1 : ℤ) ≤ (Pdm.countUW 16 255 (128 + N0) (Pdm.new.set_value 0) : ℤ) := by
    exact_mod_cast hge
  nlinarith

/-- C5 amended: the code's bit density tracks the setpoint exactly on every
recurring window of its orbit: if the engine revisits a state after `p`
steps, the window's true-bit count satisfies `p * value = max * count` for
unsigned engines and `p * (value + max) = 2 * max * count` for signed ones
(so the windowed average of the bits, mapped to `{0, max}` resp. `±max`,
equals the setpoint exactly, and the N-step average converges to it); and in
the literal test scenario — u8 engine, setpoint 42, 500000 updates, which
stays inside the i16 accumulator range — the emitted density satisfies
`0.99 <= ((count * 255) / 500000) / 42 <= 1.01`. The claim's universal form
over all documented-range setpoints fails at setpoint 0 (see the
counterexample), where the wrapped accumulator makes spurious true bits
recur. -/
theorem C5_cycle_density_and_literal :
    (∀ (max : ℤ) (s : Pdm ℤ) (p : ℕ), Pdm.runU max p s = s →
        (p : ℤ) * s.value = max * (Pdm.countU max p s : ℤ)) ∧
    (∀ (max : ℤ) (s : Pdm ℤ) (p : ℕ), Pdm.runS max p s = s →
        (p : ℤ) * (s.value + max) = 2 * max * (Pdm.countS max p s : ℤ)) ∧
    99 / 100 ≤
      ((Pdm.countU 255 500000 (Pdm.new.set_value 42) : ℚ) * 255 / 500000) / 42 ∧
    ((Pdm.countU 255 500000 (Pdm.new.set_value 42) : ℚ) * 255 / 500000) / 42 ≤
      101 / 100 := by
  refine ⟨cycle_density_U, cycle_density_S, ?_, ?_⟩ <;>
    rw [countU_500000] <;> norm_num

/-- C5 witness: the cycle-density equations applied to concrete recurring
windows: the u8 engine's period-85 window at setpoint 42 carries exactly 14
true bits (85 * 42 = 255 * 14), and an i8 engine at setpoint 0 returns to
the zero state after 4 steps with exactly 2 true bits. -/
theorem C5_witness :
    (Pdm.runU 255 85 (Pdm.mk 42 (-60) (-315)) = Pdm.mk 42 (-60) (-315) ∧
      (85 : ℤ) * (Pdm.mk (42 : ℤ) (-60) (-315)).value =
        255 * (Pdm.countU 255 85 (Pdm.mk 42 (-60) (-315)) : ℤ)) ∧
    (Pdm.runS 127 4 (Pdm.mk 0 0 0) = Pdm.mk 0 0 0 ∧
      (4 : ℤ) * ((Pdm.mk (0 : ℤ) 0 0).value + 127) =
        2 * 127 * (Pdm.countS 127 4 (Pdm.mk 0 0 0) : ℤ)) :=
  ⟨⟨u8_42_cycle,
      C5_cycle_density_and_literal.1 255 (Pdm.mk 42 (-60) (-315)) 85 u8_42_cycle⟩,
    ⟨by decide,
      C5_cycle_density_and_literal.2.1 127 (Pdm.mk 0 0 0) 4 (by decide)⟩⟩

/-- C6: the claim says boundary setpoints give eventually-constant output;
for the unsigned minimum (setpoint 0) it claims all-`false` after a finite
transient. In exact arithmetic update 128 would return `false` (second
conjunct), but under the code's release-mode wrapping semantics the i16
accumulator overflows there and update 128 returns `true` (first conjunct) —
and such spurious `true` bits recur forever, so no transient exists after
which every update returns `false`. The code deviates from the claimed
behaviour exactly where the C1 overflow bug strikes. -/
theorem C6_wrap_corrupts_boundary_output :
    Pdm.outAtUW 16 255 127 (Pdm.new.set_value 0) = true ∧
    Pdm.outAtU 255 127 (Pdm.new.set_value 0) = false :=
  ⟨by decide, by decide⟩

/-- C7: `set_value` is a total function with no validation and no error
path: for every value `v` of the bound type — including values outside the
documented valid range — it stores exactly `v` and leaves both accumulator
registers untouched. -/
theorem C7_set_value_total :
    ∀ (α : Type) (s : Pdm α) (v : α),
      (s.set_value v).value = v ∧ (s.set_value v).sigma0 = s.sigma0 ∧
        (s.set_value v).sigma1 = s.sigma1 :=
  fun _ _ _ => ⟨rfl, rfl, rfl⟩

/-- C8: every `update` variant leaves the stored setpoint unchanged; since
the state consists only of `value`, `sigma0`, `sigma1`, the call mutates at
most the two accumulator registers. -/
theorem C8_update_mutates_only_sigma :
    ∀ (max : ℤ) (s : Pdm ℤ) (q : Pdm ℚ),
      (Pdm.updateU max s).1.value = s.value ∧
      (Pdm.updateS max s).1.value = s.value ∧
      (Pdm.updateF q).1.value = q.value :=
  fun max s q => ⟨updateU_value max s, updateS_value max s, updateF_value q⟩

/-- C9: the output stream is a deterministic function of the stored setpoint
and the two sigma registers only: any two engines agreeing on these three
fields produce identical results under any interleaved sequence of
`set_value` and `update` calls; in particular two engines both built by
`new()` produce bit-for-bit identical output sequences. -/
theorem C9_deterministic :
    (∀ (α : Type) (upd : Pdm α → Pdm α × Bool) (ops : List (PdmOp α))
        (s t : Pdm α),
        s.value = t.value → s.sigma0 = t.sigma0 → s.sigma1 = t.sigma1 →
        runOps upd ops s = runOps upd ops t) ∧
    (∀ (max : ℤ) (ops : List (PdmOp ℤ)),
        (runOps (Pdm.updateU max) ops Pdm.new).2 =
          (runOps (Pdm.updateU max) ops Pdm.new).2 ∧
        (runOps (Pdm.updateS max) ops Pdm.new).2 =
          (runOps (Pdm.updateS max) ops Pdm.new).2) := by
  constructor
  · intro α upd ops s t h1 h2 h3
    have hst : s = t := by
      cases s
      cases t
      simp_all
    rw [hst]
  · intro max ops
    exact ⟨rfl, rfl⟩

/-- C9 witness: the determinism statement applied to two concretely equal
engine states and a concrete operation sequence. -/
theorem C9_witness :
    (Pdm.mk (7 : ℤ) 8 9).value = (Pdm.mk (7 : ℤ) 8 9).value ∧
    runOps (Pdm.updateU 255) [PdmOp.setValue 42, PdmOp.update, PdmOp.update]
        (Pdm.mk 7 8 9) =
      runOps (Pdm.updateU 255) [PdmOp.setValue 42, PdmOp.update, PdmOp.update]
        (Pdm.mk 7 8 9) :=
  ⟨rfl, C9_deterministic.1 ℤ (Pdm.updateU 255)
    [PdmOp.setValue 42, PdmOp.update, PdmOp.update]
    (Pdm.mk 7 8 9) (Pdm.mk 7 8 9) rfl rfl rfl⟩

/-- C10: on a freshly constructed unsigned engine with any documented-range
setpoint `v`, the first `update` returns `false`: the branch taken is the
non-negative one and the updated second stage equals `v - 2 * max`, which is
negative whenever `0 <= v <= max` and `1 <= max`. -/
theorem C10_first_update_false (max v : ℤ) (hm : 1 ≤ max) (h0 : 0 ≤ v)
    (hv : v ≤ max) :
    (Pdm.updateU max (Pdm.new.set_value v)).2 = false ∧
    (Pdm.updateU max (Pdm.new.set_value v)).1.sigma1 = v - 2 * max := by
  have hneg : ¬ ((0 : ℤ) + (0 + v - max) - max ≥ 0) := by omega
  constructor
  · simp only [Pdm.updateU, Pdm.new, Pdm.set_value]
    norm_num [hneg]
    omega
  · simp only [Pdm.updateU, Pdm.new, Pdm.set_value]
    norm_num
    ring

/-- C10 witness: the first-update theorem at the concrete inputs
`max = 255`, `v = 42`. -/
theorem C10_witness :
    ((1 : ℤ) ≤ 255 ∧ (0 : ℤ) ≤ 42 ∧ (42 : ℤ) ≤ 255) ∧
    ((Pdm.updateU 255 (Pdm.new.set_value 42)).2 = false ∧
      (Pdm.updateU 255 (Pdm.new.set_value 42)).1.sigma1 = 42 - 2 * 255) :=
  ⟨⟨by norm_num, by norm_num, by norm_num⟩,
    C10_first_update_false 255 42 (by norm_num) (by norm_num) (by norm_num)⟩
